import Mathlib

/-!
Shallow embedding of the `ridge` matrix container (`src/matrix.rs`,
`src/error.rs`).

The Rust struct `Matrix<T>` holds `content : Vec<Vec<Option<T>>>` together
with the two dimensions `x_dim` and `y_dim`.  Rust `Vec` becomes `List`,
`Option<T>` stays `Option`, `usize` becomes `Nat` (indices here never
overflow 64 bits in any claim, and Rust `usize` comparison agrees with `Nat`
comparison on the represented values).

Fallible operations in the source return `Result<_, BoundError>` but can
also panic via `.unwrap()` on a missed `Vec` lookup.  We model this with
`Option (Res BoundError α)`:
  * `some (Res.ok v)`   — the Rust call returned `Ok(v)`;
  * `some (Res.err e)`  — the Rust call returned `Err(e)`;
  * `none`              — the Rust call panicked (an `.unwrap()` failed).
-/

namespace Ridge

/-- The single error kind of `src/error.rs`: `BoundError::Exceed(usize, usize)`. -/
inductive BoundError : Type where
  | Exceed (x y : Nat) : BoundError
deriving DecidableEq, Repr

/-- Rust's `Result`, embedded (named `Res` to avoid clashing with anything). -/
inductive Res (ε α : Type) : Type where
  | ok (v : α) : Res ε α
  | err (e : ε) : Res ε α
deriving DecidableEq, Repr

/-- The `Matrix<T>` struct of `src/matrix.rs`. -/
structure Matrix (T : Type) : Type where
  content : List (List (Option T))
  x_dim : Nat
  y_dim : Nat
deriving DecidableEq, Repr

/-- `Matrix::new(x_dim, y_dim)`: `content = vec![vec![None; x_dim]; y_dim]`. -/
def Matrix.new (T : Type) (x_dim y_dim : Nat) : Matrix T :=
  { content := List.replicate y_dim (List.replicate x_dim none)
    x_dim := x_dim
    y_dim := y_dim }

/-- `Matrix::default(x_dim, y_dim)`:
`content = vec![vec![Some(T::default()); x_dim]; y_dim]`.
The Rust `T::default()` value is passed explicitly as `d`. -/
def Matrix.default (d : T) (x_dim y_dim : Nat) : Matrix T :=
  { content := List.replicate y_dim (List.replicate x_dim (some d))
    x_dim := x_dim
    y_dim := y_dim }

/-- `Matrix::add(x, y, value)`.  Checks `x > x_dim || y > y_dim`, then writes
through `content.get_mut(x).unwrap().get_mut(y).unwrap()`; each failed
lookup is the panic (`none`). -/
def Matrix.add (m : Matrix T) (x y : Nat) (value : Option T) :
    Option (Res BoundError (Matrix T)) :=
  if x > m.x_dim ∨ y > m.y_dim then
    some (Res.err (BoundError.Exceed x y))
  else
    match m.content[x]? with
    | none => none
    | some inner =>
      match inner[y]? with
      | none => none
      | some _ =>
        some (Res.ok { m with content := m.content.set x (inner.set y value) })

/-- `Matrix::remove(x, y)`: `Ok(self.add(x, y, None)?)`. -/
def Matrix.remove (m : Matrix T) (x y : Nat) : Option (Res BoundError (Matrix T)) :=
  m.add x y none

/-- `Matrix::get(x, y)`.  Same bounds check as `add`, then
`content.get(x).unwrap().get(y).unwrap()`. -/
def Matrix.get (m : Matrix T) (x y : Nat) : Option (Res BoundError (Option T)) :=
  if x > m.x_dim ∨ y > m.y_dim then
    some (Res.err (BoundError.Exceed x y))
  else
    match m.content[x]? with
    | none => none
    | some inner =>
      match inner[y]? with
      | none => none
      | some c => some (Res.ok c)

/-- Collect an option-producing map over a list, failing (panicking) as soon
as one element fails: models an iterator of `.unwrap()`ed lookups feeding
`collect()`. -/
def collectOption (g : α → Option β) : List α → Option (List β)
  | [] => some []
  | a :: as =>
    match g a with
    | none => none
    | some b => (collectOption g as).map (fun bs => b :: bs)

/-- `Matrix::col(col)`: checks `col > y_dim` (error `Exceed(0, col)`), then
`(0..y_dim).map(|pos| self.get(pos, col).unwrap()).collect()`.  The
`.unwrap()` panics when `get` returns `Err`, and `get` itself may panic. -/
def Matrix.col (m : Matrix T) (col : Nat) : Option (Res BoundError (List (Option T))) :=
  if col > m.y_dim then
    some (Res.err (BoundError.Exceed 0 col))
  else
    match collectOption
        (fun pos =>
          match m.get pos col with
          | some (Res.ok v) => some v
          | _ => none)
        (List.range m.y_dim) with
    | none => none
    | some l => some (Res.ok l)

/-- `Matrix::row(row)`: checks `row > x_dim` (error `Exceed(x_dim, y_dim)`),
then `(0..x_dim).map(|pos| self.get(row, pos).unwrap()).collect()`. -/
def Matrix.row (m : Matrix T) (row : Nat) : Option (Res BoundError (List (Option T))) :=
  if row > m.x_dim then
    some (Res.err (BoundError.Exceed m.x_dim m.y_dim))
  else
    match collectOption
        (fun pos =>
          match m.get row pos with
          | some (Res.ok v) => some v
          | _ => none)
        (List.range m.x_dim) with
    | none => none
    | some l => some (Res.ok l)

/-- `matrix.add(x, y, v).unwrap()` as used by the callers/tests: the new
state on success, a panic (`none`) on `Err` or on an internal panic. -/
def Matrix.addU (m : Matrix T) (x y : Nat) (v : Option T) : Option (Matrix T) :=
  match m.add x y v with
  | some (Res.ok m') => some m'
  | _ => none

/-- `matrix.remove(x, y).unwrap()`. -/
def Matrix.removeU (m : Matrix T) (x y : Nat) : Option (Matrix T) :=
  match m.remove x y with
  | some (Res.ok m') => some m'
  | _ => none

/-- A mutating call on the matrix: the two operations that change state. -/
inductive Op (T : Type) : Type where
  | add (x y : Nat) (v : Option T) : Op T
  | remove (x y : Nat) : Op T

/-- One mutating call as the Rust caller sees the receiver afterwards: an
`Err` return leaves the matrix unchanged, a panic (`none`) aborts. -/
def Matrix.step (m : Matrix T) : Op T → Option (Matrix T)
  | Op.add x y v =>
    match m.add x y v with
    | none => none
    | some (Res.err _) => some m
    | some (Res.ok m') => some m'
  | Op.remove x y =>
    match m.remove x y with
    | none => none
    | some (Res.err _) => some m
    | some (Res.ok m') => some m'

/-- Run a sequence of mutating calls. -/
def Matrix.runOps (m : Matrix T) : List (Op T) → Option (Matrix T)
  | [] => some m
  | op :: ops =>
    match m.step op with
    | none => none
    | some m' => m'.runOps ops

/-- Modelled from the spec: the structural interchange form.  The serializer
itself (serde / serde_json) is an external library, not code under `src/`;
the spec only requires a JSON-like object with the three fields.  Nat covers
the `usize` dimensions; cell values are encoded by a caller-supplied encoder. -/
inductive Json : Type where
  | null : Json
  | num (n : Nat) : Json
  | arr (items : List Json) : Json
  | obj (fields : List (String × Json)) : Json

/-- Modelled from the spec: serde's encoding of `Option<T>` — `None` becomes
`null`, `Some(t)` becomes the encoding of `t`. -/
def serializeCell (enc : T → Json) : Option T → Json
  | none => Json.null
  | some t => enc t

/-- Modelled from the spec: `#[derive(serde::Serialize)]` on `Matrix<T>`
emits an object with the struct's three fields in declaration order. -/
def Matrix.serialize (enc : T → Json) (m : Matrix T) : Json :=
  Json.obj
    [("content", Json.arr (m.content.map (fun inner => Json.arr (inner.map (serializeCell enc))))),
     ("x_dim", Json.num m.x_dim),
     ("y_dim", Json.num m.y_dim)]

/-- Modelled from the spec: decoding one `Option<T>` cell. -/
def deserializeCell (dec : Json → Option T) : Json → Option (Option T)
  | Json.null => some none
  | j => (dec j).map some

/-- Modelled from the spec: decoding one inner vector of cells. -/
def deserializeInner (dec : Json → Option T) : Json → Option (List (Option T))
  | Json.arr items => collectOption (deserializeCell dec) items
  | _ => none

/-- Modelled from the spec: `#[derive(serde::Deserialize)]` on `Matrix<T>`
reads the object with fields `content`, `x_dim`, `y_dim` back into the
struct. -/
def Matrix.deserialize (dec : Json → Option T) : Json → Option (Matrix T)
  | Json.obj [("content", Json.arr items), ("x_dim", Json.num x), ("y_dim", Json.num y)] =>
    (collectOption (deserializeInner dec) items).map
      (fun c => { content := c, x_dim := x, y_dim := y })
  | _ => none

/-- Decoder used to instantiate the round-trip at `T = Nat`. -/
def natDec : Json → Option Nat
  | Json.num n => some n
  | _ => none

end Ridge

/-! ## Helper lemmas: how each operation computes, case by case. -/

namespace Ridge

/-- `add` succeeds exactly when the (off-by-one) check passes and both
internal lookups hit; the new state replaces one cell of one inner list. -/
theorem Matrix.add_eq_ok {T : Type} (m : Matrix T) (x y : Nat) (v : Option T)
    (inner : List (Option T))
    (hnb : ¬(x > m.x_dim ∨ y > m.y_dim)) (hx : m.content[x]? = some inner)
    (hy : y < inner.length) :
    m.add x y v = some (Res.ok { m with content := m.content.set x (inner.set y v) }) := by
  simp only [Matrix.add, if_neg hnb, hx, List.getElem?_eq_getElem hy]

/-- `add` panics when the check passes but the outer lookup misses. -/
theorem Matrix.add_panic_outer {T : Type} (m : Matrix T) (x y : Nat) (v : Option T)
    (hnb : ¬(x > m.x_dim ∨ y > m.y_dim)) (hx : m.content[x]? = none) :
    m.add x y v = none := by
  simp only [Matrix.add, if_neg hnb, hx]

/-- `add` panics when the check passes, the outer lookup hits, but the inner
lookup misses. -/
theorem Matrix.add_panic_inner {T : Type} (m : Matrix T) (x y : Nat) (v : Option T)
    (inner : List (Option T))
    (hnb : ¬(x > m.x_dim ∨ y > m.y_dim)) (hx : m.content[x]? = some inner)
    (hy : inner[y]? = none) :
    m.add x y v = none := by
  simp only [Matrix.add, if_neg hnb, hx, hy]

/-- `get` succeeds exactly when the check passes and both lookups hit. -/
theorem Matrix.get_eq_ok {T : Type} (m : Matrix T) (x y : Nat)
    (inner : List (Option T)) (c : Option T)
    (hnb : ¬(x > m.x_dim ∨ y > m.y_dim)) (hx : m.content[x]? = some inner)
    (hy : inner[y]? = some c) :
    m.get x y = some (Res.ok c) := by
  simp only [Matrix.get, if_neg hnb, hx, hy]

/-- `get` panics when the check passes but the outer lookup misses. -/
theorem Matrix.get_panic_outer {T : Type} (m : Matrix T) (x y : Nat)
    (hnb : ¬(x > m.x_dim ∨ y > m.y_dim)) (hx : m.content[x]? = none) :
    m.get x y = none := by
  simp only [Matrix.get, if_neg hnb, hx]

/-- `get` panics when the inner lookup misses. -/
theorem Matrix.get_panic_inner {T : Type} (m : Matrix T) (x y : Nat)
    (inner : List (Option T))
    (hnb : ¬(x > m.x_dim ∨ y > m.y_dim)) (hx : m.content[x]? = some inner)
    (hy : inner[y]? = none) :
    m.get x y = none := by
  simp only [Matrix.get, if_neg hnb, hx, hy]

/-- The fresh matrix of `new`: outer lookup on `content`. -/
theorem Matrix.new_content_getElem (T : Type) (xd yd x : Nat) :
    (Matrix.new T xd yd).content[x]? =
      if x < yd then some (List.replicate xd (none : Option T)) else none := by
  simp [Matrix.new, List.getElem?_replicate]

/-- The fresh matrix of `default`: outer lookup on `content`. -/
theorem Matrix.default_content_getElem {T : Type} (d : T) (xd yd x : Nat) :
    (Matrix.default d xd yd).content[x]? =
      if x < yd then some (List.replicate xd (some d)) else none := by
  simp [Matrix.default, List.getElem?_replicate]

/-- A successful `add` keeps the dimensions, the outer length, and every
inner length. -/
theorem Matrix.add_ok_shape {T : Type} {m m2 : Matrix T} {a b : Nat} {v : Option T} {x : Nat}
    (hr : ∀ r ∈ m.content, r.length = x)
    (h : m.add a b v = some (Res.ok m2)) :
    m2.x_dim = m.x_dim ∧ m2.y_dim = m.y_dim ∧ m2.content.length = m.content.length ∧
      ∀ r ∈ m2.content, r.length = x := by
  by_cases hnb : a > m.x_dim ∨ b > m.y_dim
  · simp only [Matrix.add, if_pos hnb] at h
    exact absurd h (by simp)
  · cases hx : m.content[a]? with
    | none =>
      rw [Matrix.add_panic_outer m a b v hnb hx] at h
      exact Option.noConfusion h
    | some inner =>
      cases hy : inner[b]? with
      | none =>
        rw [Matrix.add_panic_inner m a b v inner hnb hx hy] at h
        exact Option.noConfusion h
      | some c =>
        have hylt : b < inner.length := (List.getElem?_eq_some.mp hy).1
        rw [Matrix.add_eq_ok m a b v inner hnb hx hylt] at h
        simp only [Option.some.injEq, Res.ok.injEq] at h
        subst h
        refine ⟨rfl, rfl, List.length_set .., fun r hrm => ?_⟩
        rcases List.mem_or_eq_of_mem_set hrm with hmem | heq
        · exact hr r hmem
        · subst heq
          rw [List.length_set]
          exact hr inner (List.getElem?_mem hx)

/-- One mutating call (`step`) keeps the shape facts. -/
theorem Matrix.step_shape {T : Type} {m m2 : Matrix T} {op : Op T} {x y : Nat}
    (hs : m.x_dim = x ∧ m.y_dim = y ∧ m.content.length = y ∧ ∀ r ∈ m.content, r.length = x)
    (h : m.step op = some m2) :
    m2.x_dim = x ∧ m2.y_dim = y ∧ m2.content.length = y ∧ ∀ r ∈ m2.content, r.length = x := by
  obtain ⟨h1, h2, h3, h4⟩ := hs
  cases op with
  | add a b v =>
    simp only [Matrix.step] at h
    cases hr : m.add a b v with
    | none => rw [hr] at h; exact Option.noConfusion h
    | some r =>
      rw [hr] at h
      cases r with
      | err e =>
        simp only [Option.some.injEq] at h
        subst h
        exact ⟨h1, h2, h3, h4⟩
      | ok mOk =>
        simp only [Option.some.injEq] at h
        subst h
        obtain ⟨g1, g2, g3, g4⟩ := Matrix.add_ok_shape h4 hr
        exact ⟨g1.trans h1, g2.trans h2, g3.trans h3, g4⟩
  | remove a b =>
    simp only [Matrix.step, Matrix.remove] at h
    cases hr : m.add a b none with
    | none => rw [hr] at h; exact Option.noConfusion h
    | some r =>
      rw [hr] at h
      cases r with
      | err e =>
        simp only [Option.some.injEq] at h
        subst h
        exact ⟨h1, h2, h3, h4⟩
      | ok mOk =>
        simp only [Option.some.injEq] at h
        subst h
        obtain ⟨g1, g2, g3, g4⟩ := Matrix.add_ok_shape h4 hr
        exact ⟨g1.trans h1, g2.trans h2, g3.trans h3, g4⟩

/-- Any sequence of mutating calls keeps the shape facts. -/
theorem Matrix.runOps_shape {T : Type} {x y : Nat} (ops : List (Op T)) (m m2 : Matrix T)
    (hs : m.x_dim = x ∧ m.y_dim = y ∧ m.content.length = y ∧ ∀ r ∈ m.content, r.length = x)
    (h : m.runOps ops = some m2) :
    m2.x_dim = x ∧ m2.y_dim = y ∧ m2.content.length = y ∧ ∀ r ∈ m2.content, r.length = x := by
  induction ops generalizing m with
  | nil =>
    unfold Matrix.runOps at h
    simp only [Option.some.injEq] at h
    subst h
    exact hs
  | cons op ops ih =>
    unfold Matrix.runOps at h
    cases hstep : m.step op with
    | none => rw [hstep] at h; exact Option.noConfusion h
    | some m1 =>
      rw [hstep] at h
      exact ih m1 (Matrix.step_shape hs hstep) h

/-- Shape facts of a freshly constructed matrix (either constructor). -/
theorem Matrix.new_shape (T : Type) (x y : Nat) :
    (Matrix.new T x y).x_dim = x ∧ (Matrix.new T x y).y_dim = y ∧
      (Matrix.new T x y).content.length = y ∧
      ∀ r ∈ (Matrix.new T x y).content, r.length = x := by
  refine ⟨rfl, rfl, by simp [Matrix.new], fun r hr => ?_⟩
  rw [List.eq_of_mem_replicate hr]
  simp

/-- Shape facts of a matrix built with the `Default`-based constructor. -/
theorem Matrix.default_shape {T : Type} (d : T) (x y : Nat) :
    (Matrix.default d x y).x_dim = x ∧ (Matrix.default d x y).y_dim = y ∧
      (Matrix.default d x y).content.length = y ∧
      ∀ r ∈ (Matrix.default d x y).content, r.length = x := by
  refine ⟨rfl, rfl, by simp [Matrix.default], fun r hr => ?_⟩
  rw [List.eq_of_mem_replicate hr]
  simp

/-- `add(x,y,v)` then `remove(x,y)` then `get(x,y)` yields the absent cell,
whenever the first `add` lands inside the actually allocated grid. -/
theorem Matrix.addU_removeU_get_absent {T : Type} (m : Matrix T) (x y : Nat)
    (inner : List (Option T)) (v : Option T)
    (hbx : x ≤ m.x_dim) (hby : y ≤ m.y_dim)
    (hx : m.content[x]? = some inner) (hy : y < inner.length) :
    ((m.addU x y v).bind fun m1 => (m1.removeU x y).bind fun m2 => m2.get x y)
      = some (Res.ok none) := by
  have hnb : ¬(x > m.x_dim ∨ y > m.y_dim) := by
    push_neg
    exact ⟨hbx, hby⟩
  have hxlen : x < m.content.length := by
    rcases List.getElem?_eq_some.mp hx with ⟨hlt, _⟩
    exact hlt
  have h1 := Matrix.add_eq_ok m x y v inner hnb hx hy
  have h1u : m.addU x y v = some { m with content := m.content.set x (inner.set y v) } := by
    simp only [Matrix.addU, h1]
  set m1 : Matrix T := { m with content := m.content.set x (inner.set y v) } with hm1
  have hx1 : m1.content[x]? = some (inner.set y v) := by
    rw [hm1]
    exact List.getElem?_set_eq_of_lt (inner.set y v) hxlen
  have hy1 : y < (inner.set y v).length := by
    rw [List.length_set]
    exact hy
  have h2 := Matrix.add_eq_ok m1 x y none (inner.set y v) hnb hx1 hy1
  have h2u : m1.removeU x y =
      some { m1 with content := m1.content.set x ((inner.set y v).set y none) } := by
    simp only [Matrix.removeU, Matrix.remove, h2]
  set m2 : Matrix T := { m1 with content := m1.content.set x ((inner.set y v).set y none) }
    with hm2
  have hx2 : m2.content[x]? = some ((inner.set y v).set y none) := by
    rw [hm2, hm1]
    exact List.getElem?_set_eq_of_lt _ (by simpa using hxlen)
  have hy2 : ((inner.set y v).set y none)[y]? = some none :=
    List.getElem?_set_eq_of_lt _ (by simpa using hy)
  have h3 := Matrix.get_eq_ok m2 x y ((inner.set y v).set y none) none hnb hx2 hy2
  rw [h1u, Option.some_bind, h2u, Option.some_bind]
  exact h3

/-- Each element of a mapped list that decodes back to itself makes the
whole collection decode back to the original list. -/
theorem collectOption_map_eq {α β : Type} (g : β → Option α) (f : α → β) (l : List α)
    (h : ∀ a ∈ l, g (f a) = some a) : collectOption g (l.map f) = some l := by
  induction l with
  | nil => rfl
  | cons a as ih =>
    have ha := h a (List.mem_cons_self a as)
    have has := ih (fun b hb => h b (List.mem_cons_of_mem a hb))
    simp [collectOption, ha, has]

/-- One cell encodes and decodes back to itself when the value encoder never
produces `null` and the value decoder inverts the encoder. -/
theorem deserializeCell_serializeCell {T : Type} (enc : T → Json) (dec : Json → Option T)
    (hnn : ∀ t, enc t ≠ Json.null) (hdec : ∀ t, dec (enc t) = some t) (c : Option T) :
    deserializeCell dec (serializeCell enc c) = some c := by
  cases c with
  | none => rfl
  | some t =>
    have h2 := hdec t
    cases h : enc t with
    | null => exact absurd h (hnn t)
    | num n =>
      have hs : serializeCell enc (some t) = Json.num n := h
      rw [hs]
      show (dec (Json.num n)).map some = some (some t)
      rw [← h, h2]
      rfl
    | arr l =>
      have hs : serializeCell enc (some t) = Json.arr l := h
      rw [hs]
      show (dec (Json.arr l)).map some = some (some t)
      rw [← h, h2]
      rfl
    | obj f =>
      have hs : serializeCell enc (some t) = Json.obj f := h
      rw [hs]
      show (dec (Json.obj f)).map some = some (some t)
      rw [← h, h2]
      rfl

end Ridge

/-! ## The claims. -/

namespace Ridge

/-- Claim C1 (counterexample).  The claim says any `(x, y)` with
`x ≥ x_dim` or `y ≥ y_dim` makes `add` and `get` return the bounds error
carrying `(x, y)`.  On a 1×1 matrix the coordinate `(1, 0)` has `x = x_dim`,
yet both operations panic (the `.unwrap()` fails) instead of returning
`Exceed(1, 0)`: the `x > x_dim` comparison lets `x = x_dim` through. -/
theorem add_at_dim_panics_not_bounds_error :
    (Matrix.new Nat 1 1).x_dim ≤ 1 ∧
    (Matrix.new Nat 1 1).add 1 0 (some 0) = none ∧
    (Matrix.new Nat 1 1).get 1 0 = none ∧
    (none : Option (Res BoundError (Matrix Nat))) ≠
      some (Res.err (BoundError.Exceed 1 0)) ∧
    (none : Option (Res BoundError (Option Nat))) ≠
      some (Res.err (BoundError.Exceed 1 0)) := by
  decide

/-- Claim C1 (amended).  For `(x, y)` strictly above a dimension
(`x > x_dim` or `y > y_dim`), `add`, `get` and `remove` return the bounds
error `Exceed(x, y)` carrying the supplied coordinates, and no modified
matrix is produced (the error is returned before any write). -/
theorem reject_above_dims_with_supplied_coords {T : Type} (m : Matrix T) (x y : Nat)
    (v : Option T) (h : x > m.x_dim ∨ y > m.y_dim) :
    m.add x y v = some (Res.err (BoundError.Exceed x y)) ∧
    m.get x y = some (Res.err (BoundError.Exceed x y)) ∧
    m.remove x y = some (Res.err (BoundError.Exceed x y)) := by
  refine ⟨?_, ?_, ?_⟩
  · unfold Matrix.add
    rw [if_pos h]
  · unfold Matrix.get
    rw [if_pos h]
  · unfold Matrix.remove Matrix.add
    rw [if_pos h]

/-- Claim C1 (witness for the amended theorem). -/
theorem reject_above_dims_witness :
    (Matrix.new Nat 1 1).add 2 0 (some 5) = some (Res.err (BoundError.Exceed 2 0)) ∧
    (Matrix.new Nat 1 1).get 2 0 = some (Res.err (BoundError.Exceed 2 0)) ∧
    (Matrix.new Nat 1 1).remove 2 0 = some (Res.err (BoundError.Exceed 2 0)) :=
  reject_above_dims_with_supplied_coords (Matrix.new Nat 1 1) 2 0 (some 5)
    (Or.inl (by decide))

/-- Claim C2 (code bug).  `(1, 0)` is in bounds for a 2×1 matrix
(`x = 1 < x_dim = 2`, `y = 0 < y_dim = 1`), so the claim — and the source's
own comment "It is safe to just unwrap here, we checked the bounds above" —
says the write succeeds.  Instead `add` panics: the constructor allocates
`y_dim = 1` outer entries but `add` indexes the outer list with `x = 1`. -/
theorem inbounds_add_panics_on_nonsquare :
    1 < (Matrix.new Nat 2 1).x_dim ∧
    0 < (Matrix.new Nat 2 1).y_dim ∧
    (Matrix.new Nat 2 1).add 1 0 (some 7) = none ∧
    (Matrix.new Nat 2 1).get 1 0 = none := by
  decide

/-- Claim C3 (confirmed).  Because the bounds test compares with
`x > x_dim` instead of `x >= x_dim`, the index `n` passes the check on an
n×n matrix (first conjunct), the outer-sequence lookup misses (third
conjunct), and `add(n, 0, v)` panics rather than returning the bounds error
(second conjunct: the result is the panic `none`, not `some`-anything). -/
theorem off_by_one_square_add_at_dim_panics (T : Type) (n : Nat) (_hn : 0 < n)
    (v : Option T) :
    ¬(n > (Matrix.new T n n).x_dim ∨ 0 > (Matrix.new T n n).y_dim) ∧
    (Matrix.new T n n).add n 0 v = none ∧
    (Matrix.new T n n).content[n]? = none := by
  have hnb : ¬(n > (Matrix.new T n n).x_dim ∨ 0 > (Matrix.new T n n).y_dim) := by
    simp [Matrix.new]
  have hout : (Matrix.new T n n).content[n]? = none := by
    rw [Matrix.new_content_getElem]
    simp
  exact ⟨hnb, Matrix.add_panic_outer _ n 0 v hnb hout, hout⟩

/-- Claim C3 (witness). -/
theorem off_by_one_square_witness :
    ¬(3 > (Matrix.new Nat 3 3).x_dim ∨ 0 > (Matrix.new Nat 3 3).y_dim) ∧
    (Matrix.new Nat 3 3).add 3 0 (some 1) = none ∧
    (Matrix.new Nat 3 3).content[3]? = none :=
  off_by_one_square_add_at_dim_panics Nat 3 (by decide) (some 1)

/-- Claim C4 (counterexample).  The claim says that on a matrix built with
the `Default`-based constructor, `add(0,0,Some 5)` then `remove(0,0)` then
`get(0,0)` returns the type's default value (`Some 0` for `Nat`).  It
returns the absent marker `none` instead: `remove` always writes `None`,
whichever constructor built the matrix. -/
theorem default_remove_yields_absent_not_default :
    (((Matrix.default (0 : Nat) 1 1).addU 0 0 (some 5)).bind fun m1 =>
        (m1.removeU 0 0).bind fun m2 => m2.get 0 0)
      = some (Res.ok none) ∧
    ¬((((Matrix.default (0 : Nat) 1 1).addU 0 0 (some 5)).bind fun m1 =>
        (m1.removeU 0 0).bind fun m2 => m2.get 0 0)
      = some (Res.ok (some 0))) := by
  decide

/-- Claim C4 (amended).  For coordinates inside the actually allocated grid
(`x < x_dim`, `y < y_dim` and also `x < y_dim`, `y < x_dim` — the outer list
has `y_dim` entries and is indexed by `x`), `add(x,y,v)` then `remove(x,y)`
then `get(x,y)` succeeds and returns the absent marker `none` under BOTH
constructors, and `remove` is literally `add` of the absent marker, hence
has the same bounds contract as `add`. -/
theorem add_remove_get_absent_both_policies (T : Type) (d : T) (v : Option T)
    (x y xd yd : Nat)
    (hx : x < xd) (hy : y < yd) (hxg : x < yd) (hyg : y < xd) :
    ((((Matrix.new T xd yd).addU x y v).bind fun m1 =>
        (m1.removeU x y).bind fun m2 => m2.get x y)
      = some (Res.ok none)) ∧
    ((((Matrix.default d xd yd).addU x y v).bind fun m1 =>
        (m1.removeU x y).bind fun m2 => m2.get x y)
      = some (Res.ok none)) ∧
    (∀ m : Matrix T, m.remove x y = m.add x y none) := by
  refine ⟨?_, ?_, fun m => rfl⟩
  · refine Matrix.addU_removeU_get_absent _ x y (List.replicate xd none) v
      (Nat.le_of_lt hx) (Nat.le_of_lt hy) ?_ ?_
    · rw [Matrix.new_content_getElem, if_pos hxg]
    · simpa using hyg
  · refine Matrix.addU_removeU_get_absent _ x y (List.replicate xd (some d)) v
      (Nat.le_of_lt hx) (Nat.le_of_lt hy) ?_ ?_
    · rw [Matrix.default_content_getElem, if_pos hxg]
    · simpa using hyg

/-- Claim C4 (witness for the amended theorem). -/
theorem add_remove_get_absent_witness :
    ((((Matrix.new Nat 2 2).addU 0 1 (some 9)).bind fun m1 =>
        (m1.removeU 0 1).bind fun m2 => m2.get 0 1)
      = some (Res.ok none)) ∧
    ((((Matrix.default (7 : Nat) 2 2).addU 0 1 (some 9)).bind fun m1 =>
        (m1.removeU 0 1).bind fun m2 => m2.get 0 1)
      = some (Res.ok none)) ∧
    (∀ m : Matrix Nat, m.remove 0 1 = m.add 0 1 none) :=
  add_remove_get_absent_both_policies Nat 7 (some 9) 0 1 2 2
    (by decide) (by decide) (by decide) (by decide)

/-- Claim C5 (counterexample).  The claim says `row(i)` failing its bounds
check returns an error carrying the supplied index `i`.  On a matrix with
`x_dim = 2`, `y_dim = 3`, the call `row(10)` fails with `Exceed(2, 3)` —
the stored dimensions, with the supplied index `10` appearing in neither
coordinate. -/
theorem row_error_drops_supplied_index :
    (Matrix.new Nat 2 3).row 10 = some (Res.err (BoundError.Exceed 2 3)) ∧
    (2 : Nat) ≠ 10 ∧ (3 : Nat) ≠ 10 := by
  decide

/-- Claim C5 (amended).  `add`, `get` and `remove` failing the bounds check
return `Exceed(x, y)` with the supplied coordinates; `col(j)` failing its
check returns `Exceed(0, j)` — the supplied index in the second coordinate,
a constant `0` in the first; but `row(i)` failing its check returns
`Exceed(x_dim, y_dim)`, which does not carry the supplied index at all. -/
theorem bound_error_coords_per_accessor {T : Type} (m : Matrix T) (x y i j : Nat)
    (v : Option T)
    (hxy : x > m.x_dim ∨ y > m.y_dim) (hi : i > m.x_dim) (hj : j > m.y_dim) :
    m.add x y v = some (Res.err (BoundError.Exceed x y)) ∧
    m.get x y = some (Res.err (BoundError.Exceed x y)) ∧
    m.remove x y = some (Res.err (BoundError.Exceed x y)) ∧
    m.row i = some (Res.err (BoundError.Exceed m.x_dim m.y_dim)) ∧
    m.col j = some (Res.err (BoundError.Exceed 0 j)) := by
  refine ⟨?_, ?_, ?_, ?_, ?_⟩
  · unfold Matrix.add
    rw [if_pos hxy]
  · unfold Matrix.get
    rw [if_pos hxy]
  · unfold Matrix.remove Matrix.add
    rw [if_pos hxy]
  · unfold Matrix.row
    rw [if_pos hi]
  · unfold Matrix.col
    rw [if_pos hj]

/-- Claim C5 (witness for the amended theorem). -/
theorem bound_error_coords_witness :
    (Matrix.new Nat 1 2).add 5 0 (some 4) = some (Res.err (BoundError.Exceed 5 0)) ∧
    (Matrix.new Nat 1 2).get 5 0 = some (Res.err (BoundError.Exceed 5 0)) ∧
    (Matrix.new Nat 1 2).remove 5 0 = some (Res.err (BoundError.Exceed 5 0)) ∧
    (Matrix.new Nat 1 2).row 9 = some (Res.err (BoundError.Exceed 1 2)) ∧
    (Matrix.new Nat 1 2).col 7 = some (Res.err (BoundError.Exceed 0 7)) :=
  bound_error_coords_per_accessor (Matrix.new Nat 1 2) 5 0 9 7 (some 4)
    (Or.inl (by decide)) (by decide) (by decide)

/-- Claim C6 (confirmed).  Both constructors are total (no error path, any
dimensions including zero) and yield a rectangular grid of `y_dim` outer
entries of `x_dim` cells each — `x_dim * y_dim` cells in all — with every
cell holding the policy's empty representation: `none` after `new`,
`some d` (the default value) after `default`. -/
theorem constructors_allocate_full_empty_grid (T : Type) (d : T) (x y : Nat) :
    ((Matrix.new T x y).x_dim = x ∧ (Matrix.new T x y).y_dim = y ∧
      (Matrix.new T x y).content.length = y ∧
      (∀ r ∈ (Matrix.new T x y).content, r.length = x ∧ ∀ c ∈ r, c = none)) ∧
    ((Matrix.default d x y).x_dim = x ∧ (Matrix.default d x y).y_dim = y ∧
      (Matrix.default d x y).content.length = y ∧
      (∀ r ∈ (Matrix.default d x y).content, r.length = x ∧ ∀ c ∈ r, c = some d)) := by
  refine ⟨⟨rfl, rfl, by simp [Matrix.new], fun r hr => ?_⟩,
    ⟨rfl, rfl, by simp [Matrix.default], fun r hr => ?_⟩⟩
  · rw [List.eq_of_mem_replicate hr]
    exact ⟨by simp, fun c hc => List.eq_of_mem_replicate hc⟩
  · rw [List.eq_of_mem_replicate hr]
    exact ⟨by simp, fun c hc => List.eq_of_mem_replicate hc⟩

/-- Claim C7 (confirmed).  Starting from either constructor, any sequence
of `add` and `remove` calls that does not abort preserves the shape
invariant: the outer list keeps exactly `y_dim` entries, every inner list
keeps exactly `x_dim` cells (no inner list is lengthened or shortened —
`add` only replaces one cell via `set`), and the stored `x_dim` and `y_dim`
fields never change after construction. -/
theorem shape_invariant_preserved_by_all_ops (T : Type) (d : T) (x y : Nat)
    (ops : List (Op T)) (mN mD : Matrix T)
    (hN : (Matrix.new T x y).runOps ops = some mN)
    (hD : (Matrix.default d x y).runOps ops = some mD) :
    (mN.x_dim = x ∧ mN.y_dim = y ∧ mN.content.length = y ∧
      ∀ r ∈ mN.content, r.length = x) ∧
    (mD.x_dim = x ∧ mD.y_dim = y ∧ mD.content.length = y ∧
      ∀ r ∈ mD.content, r.length = x) :=
  ⟨Matrix.runOps_shape ops _ mN (Matrix.new_shape T x y) hN,
   Matrix.runOps_shape ops _ mD (Matrix.default_shape d x y) hD⟩

/-- Claim C7 (witness). -/
theorem shape_invariant_witness :
    ((⟨[[some 5]], 1, 1⟩ : Matrix Nat).x_dim = 1 ∧
      (⟨[[some 5]], 1, 1⟩ : Matrix Nat).y_dim = 1 ∧
      (⟨[[some 5]], 1, 1⟩ : Matrix Nat).content.length = 1 ∧
      ∀ r ∈ (⟨[[some 5]], 1, 1⟩ : Matrix Nat).content, r.length = 1) ∧
    ((⟨[[some 5]], 1, 1⟩ : Matrix Nat).x_dim = 1 ∧
      (⟨[[some 5]], 1, 1⟩ : Matrix Nat).y_dim = 1 ∧
      (⟨[[some 5]], 1, 1⟩ : Matrix Nat).content.length = 1 ∧
      ∀ r ∈ (⟨[[some 5]], 1, 1⟩ : Matrix Nat).content, r.length = 1) :=
  shape_invariant_preserved_by_all_ops Nat 0 1 1
    [Op.add 0 0 (some 3), Op.remove 0 0, Op.add 0 0 (some 5), Op.add 9 9 (some 2)]
    ⟨[[some 5]], 1, 1⟩ ⟨[[some 5]], 1, 1⟩ (by decide) (by decide)

/-- Claim C8 (confirmed against the spec-modelled serializer).  For every
matrix, deserializing the structural serialization reproduces the matrix in
all three fields, provided the cell-value encoder never encodes a value as
the absent marker `null` and the cell-value decoder inverts the encoder. -/
theorem serialize_roundtrip {T : Type} (enc : T → Json) (dec : Json → Option T)
    (hnn : ∀ t, enc t ≠ Json.null) (hdec : ∀ t, dec (enc t) = some t)
    (m : Matrix T) :
    Matrix.deserialize dec (Matrix.serialize enc m) = some m := by
  have hinner : ∀ inner : List (Option T),
      deserializeInner dec (Json.arr (inner.map (serializeCell enc))) = some inner := by
    intro inner
    show collectOption (deserializeCell dec) (inner.map (serializeCell enc)) = some inner
    exact collectOption_map_eq _ _ inner
      (fun c _ => deserializeCell_serializeCell enc dec hnn hdec c)
  show (collectOption (deserializeInner dec)
      (m.content.map (fun inner => Json.arr (inner.map (serializeCell enc))))).map
      (fun c => ({ content := c, x_dim := m.x_dim, y_dim := m.y_dim } : Matrix T))
      = some m
  rw [collectOption_map_eq _ _ m.content (fun r _ => hinner r)]
  rfl

/-- Claim C8 (witness), at `T = Nat` on a populated 2×1 matrix. -/
theorem serialize_roundtrip_witness :
    Matrix.deserialize natDec
        (Matrix.serialize Json.num (⟨[[some 3, none]], 2, 1⟩ : Matrix Nat))
      = some (⟨[[some 3, none]], 2, 1⟩ : Matrix Nat) :=
  serialize_roundtrip Json.num natDec (fun _ h => Json.noConfusion h) (fun _ => rfl)
    ⟨[[some 3, none]], 2, 1⟩

/-- Claim C9 (confirmed).  On a 3×3 matrix with `(0,0)`, `(1,0)`, `(2,0)`
set to `1`, `col(0)` yields `[1, 1, 1]` and `row(0)` yields
`[1, <absent>, <absent>]`. -/
theorem scenario_3x3_row_col :
    ((((Matrix.new Nat 3 3).addU 0 0 (some 1)).bind fun m1 =>
      (m1.addU 1 0 (some 1)).bind fun m2 =>
        (m2.addU 2 0 (some 1)).bind fun m3 => m3.col 0)
      = some (Res.ok [some 1, some 1, some 1])) ∧
    ((((Matrix.new Nat 3 3).addU 0 0 (some 1)).bind fun m1 =>
      (m1.addU 1 0 (some 1)).bind fun m2 =>
        (m2.addU 2 0 (some 1)).bind fun m3 => m3.row 0)
      = some (Res.ok [some 1, none, none])) := by
  decide

/-- Claim C10 (counterexample).  The claim quantifies over every non-square
matrix, but a 1×0 matrix is non-square and admits no in-bounds coordinates
at all (`y < y_dim = 0` is impossible), so the claimed coordinates do not
exist for it. -/
theorem nonsquare_zero_dim_has_no_inbounds_coords :
    (Matrix.new Nat 1 0).x_dim ≠ (Matrix.new Nat 1 0).y_dim ∧
    (∀ x y : Nat, ¬(x < (Matrix.new Nat 1 0).x_dim ∧ y < (Matrix.new Nat 1 0).y_dim)) := by
  refine ⟨by decide, fun x y h => ?_⟩
  exact Nat.not_lt_zero y h.2

/-- Claim C10 (amended).  The constructor fills `y_dim` outer entries of
`x_dim` cells each while `add`/`get` index `content[x][y]`; hence for every
non-square matrix WITH BOTH DIMENSIONS POSITIVE there are coordinates in
bounds per the stored dimensions (`x < x_dim`, `y < y_dim`, yet `x ≥ y_dim`
or `y ≥ x_dim`) on which `add` and `get` pass the bounds check but panic on
the internal lookup. -/
theorem nonsquare_positive_dims_inbounds_panic (T : Type) (v : Option T) (xd yd : Nat)
    (hne : xd ≠ yd) (hx : 0 < xd) (hy : 0 < yd) :
    (Matrix.new T xd yd).content.length = yd ∧
    (∀ r ∈ (Matrix.new T xd yd).content, r.length = xd) ∧
    ∃ x y, x < xd ∧ y < yd ∧ (yd ≤ x ∨ xd ≤ y) ∧
      (Matrix.new T xd yd).add x y v = none ∧
      (Matrix.new T xd yd).get x y = none := by
  refine ⟨by simp [Matrix.new],
    fun r hr => by rw [List.eq_of_mem_replicate hr]; simp, ?_⟩
  rcases Nat.lt_or_ge xd yd with hlt | hge
  · have hnb : ¬(0 > (Matrix.new T xd yd).x_dim ∨ xd > (Matrix.new T xd yd).y_dim) := by
      simp only [Matrix.new]
      omega
    have hout : (Matrix.new T xd yd).content[0]? =
        some (List.replicate xd (none : Option T)) := by
      rw [Matrix.new_content_getElem, if_pos hy]
    have hin : (List.replicate xd (none : Option T))[xd]? = none := by
      simp [List.getElem?_replicate]
    exact ⟨0, xd, hx, hlt, Or.inr (Nat.le_refl xd),
      Matrix.add_panic_inner _ 0 xd v _ hnb hout hin,
      Matrix.get_panic_inner _ 0 xd _ hnb hout hin⟩
  · have hgt : yd < xd := Nat.lt_of_le_of_ne hge (fun h => hne h.symm)
    have hnb : ¬(yd > (Matrix.new T xd yd).x_dim ∨ 0 > (Matrix.new T xd yd).y_dim) := by
      simp only [Matrix.new]
      omega
    have hout : (Matrix.new T xd yd).content[yd]? = (none : Option (List (Option T))) := by
      rw [Matrix.new_content_getElem]
      simp
    exact ⟨yd, 0, hgt, hy, Or.inl (Nat.le_refl yd),
      Matrix.add_panic_outer _ yd 0 v hnb hout,
      Matrix.get_panic_outer _ yd 0 hnb hout⟩

/-- Claim C10 (witness for the amended theorem), on a 1×2 matrix. -/
theorem nonsquare_positive_dims_witness :
    (Matrix.new Nat 1 2).content.length = 2 ∧
    (∀ r ∈ (Matrix.new Nat 1 2).content, r.length = 1) ∧
    ∃ x y, x < 1 ∧ y < 2 ∧ (2 ≤ x ∨ 1 ≤ y) ∧
      (Matrix.new Nat 1 2).add x y (some 0) = none ∧
      (Matrix.new Nat 1 2).get x y = none :=
  nonsquare_positive_dims_inbounds_panic Nat (some 0) 1 2 (by decide) (by decide) (by decide)

end Ridge
